import Mathlib

/-!
Shallow embedding of the minced-parser crate (`src/lib.rs`): a nom-based
recursive-descent parser for the text reports produced by the MinCED CRISPR
annotation tool, together with proofs about its behavior.

Input is modelled as `List Char`.  A parser returns `Except PErr (rest, value)`
where `PErr.mismatch` models nom's recoverable `Err::Error` and `PErr.crash`
models a Rust panic (the source calls `.parse::<usize>().unwrap()` on text it
did not validate, which panics rather than returning a parse error).

Machine integers: the source uses `usize`; unchecked `- 1` and `+` are
modelled with release-mode two's-complement wrapping, i.e. arithmetic
modulo `2 ^ 64` (debug builds would panic at the same spots instead of
wrapping; either way the operation does not yield an explicit error).
-/

namespace Minced

inductive PErr where
  | mismatch
  | crash
deriving DecidableEq, Repr

abbrev Parser (α : Type) : Type := List Char → Except PErr (List Char × α)

def USIZE : Nat := 2 ^ 64

/-- Wrapping `usize` subtraction of 1 (`x - 1` in the source). -/
def wsub1 (n : Nat) : Nat := (n + (USIZE - 1)) % USIZE

/-- Wrapping `usize` addition (`a + b` in the source). -/
def wadd (a b : Nat) : Nat := (a + b) % USIZE

/-- The single-quote character, `'`. -/
def squote : Char := Char.ofNat 39

/-- Numeric value of a list of decimal digit characters. -/
def parseNatDigits (ds : List Char) : Nat :=
  ds.foldl (fun a c => a * 10 + (c.toNat - 48)) 0

/-- The optional leading `+` accepted by Rust `usize::from_str`. -/
def stripPlus (s : List Char) : List Char :=
  match s with
  | c :: rest => if c = '+' then rest else s
  | [] => []

/-- Rust `s.parse::<usize>().unwrap()`: accepts an optional leading `+` then a
nonempty ASCII digit run whose value fits in `usize`; anything else panics. -/
def rustParseUsize (s : List Char) : Except PErr Nat :=
  let digits := stripPlus s
  if digits ≠ [] ∧ digits.all Char.isDigit then
    let v := parseNatDigits digits
    if v < USIZE then .ok v else .error .crash
  else .error .crash

/-- nom `tag`: match a literal, consume it. -/
def tagP (t : List Char) : Parser (List Char) := fun input =>
  if t.isPrefixOf input then .ok (input.drop t.length, t) else .error .mismatch

/-- nom `char`: match a single literal character. -/
def charP (c : Char) : Parser Char := fun input =>
  match input with
  | [] => .error .mismatch
  | x :: rest => if x = c then .ok (rest, c) else .error .mismatch

/-- Maximal nonempty run of characters satisfying `p` (shape of nom's
`digit1`, `alpha1`, `multispace1`). -/
def spanP (p : Char → Bool) : Parser (List Char) := fun input =>
  if input.takeWhile p = [] then .error .mismatch
  else .ok (input.dropWhile p, input.takeWhile p)

/-- nom `digit1` (ASCII decimal digits). -/
def digit1 : Parser (List Char) := spanP Char.isDigit

/-- nom `alpha1` (ASCII letters). -/
def alpha1 : Parser (List Char) := spanP Char.isAlpha

def isMultispaceChar (c : Char) : Bool :=
  c = ' ' || c = '\t' || c = '\r' || c = '\n'

/-- nom `multispace1` (spaces, tabs, carriage returns, newlines). -/
def multispace1 : Parser (List Char) := spanP isMultispaceChar

/-- nom `line_ending`: `"\n"` or `"\r\n"`. -/
def lineEnding : Parser (List Char) := fun input =>
  match input with
  | '\n' :: rest => .ok (rest, ['\n'])
  | '\r' :: '\n' :: rest => .ok (rest, ['\r', '\n'])
  | _ => .error .mismatch

/-- nom complete `not_line_ending`: the (possibly empty) run before the next
line ending; errors on a carriage return not followed by a newline. -/
def notLineEnding : Parser (List Char) := fun input =>
  let pre := input.takeWhile (fun c => !(c = '\r' || c = '\n'))
  let rest := input.dropWhile (fun c => !(c = '\r' || c = '\n'))
  match rest with
  | '\r' :: '\n' :: _ => .ok (rest, pre)
  | '\r' :: _ => .error .mismatch
  | _ => .ok (rest, pre)

/-- nom `take_until`: consume up to (not including) the first occurrence of
`t`; error when `t` never occurs. -/
def takeUntilGo (t : List Char) : List Char → Except PErr (List Char × List Char)
  | [] => if t.isPrefixOf ([] : List Char) then .ok ([], []) else .error .mismatch
  | c :: rest =>
    if t.isPrefixOf (c :: rest) then .ok (c :: rest, [])
    else match takeUntilGo t rest with
      | .ok (rem, pre) => .ok (rem, c :: pre)
      | .error e => .error e

def takeUntil (t : List Char) : Parser (List Char) := fun input => takeUntilGo t input

/-- nom `many0` with explicit fuel (structural recursion so that the
definition computes): repeat `p` until it fails recoverably; a success that
consumes nothing is an error (infinite-loop protection); a crash propagates.
Each iteration strictly shrinks the input, so fuel `input.length + 1` is
never exhausted. -/
def many0F (p : Parser α) : Nat → List Char → Except PErr (List Char × List α)
  | 0, _ => .error .mismatch
  | fuel + 1, input =>
    match p input with
    | .error .crash => .error .crash
    | .error .mismatch => .ok (input, [])
    | .ok (rest, a) =>
      if rest.length < input.length then
        match many0F p fuel rest with
        | .error e => .error e
        | .ok (rem, tl) => .ok (rem, a :: tl)
      else .error .mismatch

/-- nom `many0`. -/
def many0 (p : Parser α) : Parser (List α) := fun input =>
  many0F p (input.length + 1) input

/-- nom `many1`: `p` once (propagating its failure), then as `many0`. -/
def many1 (p : Parser α) : Parser (List α) := fun input =>
  match p input with
  | .error e => .error e
  | .ok (rest, a) =>
    match many0 p rest with
    | .error e => .error e
    | .ok (rem, tl) => .ok (rem, a :: tl)

/-- `RepeatSpacer` from the source; the Rust fields `repeat` and `end`
are `repeat_` and `end_` here (both are Lean keywords). -/
structure RepeatSpacer where
  repeat_ : List Char
  spacer : List Char
  start : Nat
  end_ : Nat
  spacer_start : Nat
  spacer_end : Nat
  repeat_start : Nat
  repeat_end : Nat
deriving DecidableEq, Repr

/-- `RepeatOnly` from the source (Rust field `end` is `end_`). -/
structure RepeatOnly where
  repeat_ : List Char
  start : Nat
  end_ : Nat
deriving DecidableEq, Repr

/-- `Repeat` from the source. -/
inductive Repeat where
  | WithSpacer (rs : RepeatSpacer)
  | WithoutSpacer (ro : RepeatOnly)
deriving DecidableEq, Repr

/-- `Array` from the source. -/
structure Array where
  order : Nat
  start : Nat
  end_ : Nat
  repeat_spacers : List Repeat
deriving DecidableEq, Repr

/-- `Contig` from the source. -/
structure Contig where
  accession : List Char
  bp : Nat
  arrays : List Array
deriving DecidableEq, Repr

/-- `skip_one_line`: `pair(not_line_ending, line_ending)`. -/
def skip_one_line : Parser Unit := fun input =>
  match notLineEnding input with
  | .error e => .error e
  | .ok (r1, _) =>
    match lineEnding r1 with
    | .error e => .error e
    | .ok (r2, _) => .ok (r2, ())

/-- `skip_empty_line`: `line_ending`. -/
def skip_empty_line : Parser Unit := fun input =>
  match lineEnding input with
  | .error e => .error e
  | .ok (r, _) => .ok (r, ())

/-- `parse_footer`: blank line, one discarded line, blank line, blank line. -/
def parse_footer : Parser Unit := fun input =>
  match skip_empty_line input with
  | .error e => .error e
  | .ok (r1, _) =>
    match skip_one_line r1 with
    | .error e => .error e
    | .ok (r2, _) =>
      match skip_empty_line r2 with
      | .error e => .error e
      | .ok (r3, _) =>
        match skip_empty_line r3 with
        | .error e => .error e
        | .ok (r4, _) => .ok (r4, ())

/-- `parse_crispr_order_and_coordinates`:
`tag "CRISPR"`, `char ' '`, `digit1`, `multispace1`, `tag "Range:"`,
`char ' '`, `digit1`, `tag " - "`, `digit1`; yields
`(order - 1, start - 1, end)` with unchecked decrements. -/
def parse_crispr_order_and_coordinates : Parser (Nat × Nat × Nat) := fun input =>
  match tagP "CRISPR".toList input with
  | .error e => .error e
  | .ok (r1, _) =>
    match charP ' ' r1 with
    | .error e => .error e
    | .ok (r2, _) =>
      match digit1 r2 with
      | .error e => .error e
      | .ok (r3, raw_order) =>
        match multispace1 r3 with
        | .error e => .error e
        | .ok (r4, _) =>
          match tagP "Range:".toList r4 with
          | .error e => .error e
          | .ok (r5, _) =>
            match charP ' ' r5 with
            | .error e => .error e
            | .ok (r6, _) =>
              match digit1 r6 with
              | .error e => .error e
              | .ok (r7, rawStart) =>
                match tagP " - ".toList r7 with
                | .error e => .error e
                | .ok (r8, _) =>
                  match digit1 r8 with
                  | .error e => .error e
                  | .ok (r9, rawEnd) =>
                    match rustParseUsize raw_order with
                    | .error e => .error e
                    | .ok o =>
                      match rustParseUsize rawStart with
                      | .error e => .error e
                      | .ok s =>
                        match rustParseUsize rawEnd with
                        | .error e => .error e
                        | .ok en => .ok (r9, (wsub1 o, wsub1 s, en))

/-- `parse_accession_line`:
`tag "Sequence '"`, `take_until "'"`, `tag "'"`, `char ' '`, `tag "("`,
`take_until " "`, `tag " bp)"`; the bp text is fed to `parse().unwrap()`. -/
def parse_accession_line : Parser (List Char × Nat) := fun input =>
  match tagP ("Sequence ".toList ++ [squote]) input with
  | .error e => .error e
  | .ok (r1, _) =>
    match takeUntil [squote] r1 with
    | .error e => .error e
    | .ok (r2, accession) =>
      match tagP [squote] r2 with
      | .error e => .error e
      | .ok (r3, _) =>
        match charP ' ' r3 with
        | .error e => .error e
        | .ok (r4, _) =>
          match tagP "(".toList r4 with
          | .error e => .error e
          | .ok (r5, _) =>
            match takeUntil [' '] r5 with
            | .error e => .error e
            | .ok (r6, bpText) =>
              match tagP " bp)".toList r6 with
              | .error e => .error e
              | .ok (r7, _) =>
                match rustParseUsize bpText with
                | .error e => .error e
                | .ok bp => .ok (r7, (accession, bp))

/-- `parse_repeat_only`: `digit1`, `multispace1`, `alpha1`, `multispace1`. -/
def parse_repeat_only : Parser Repeat := fun input =>
  match digit1 input with
  | .error e => .error e
  | .ok (r1, raw_start) =>
    match multispace1 r1 with
    | .error e => .error e
    | .ok (r2, _) =>
      match alpha1 r2 with
      | .error e => .error e
      | .ok (r3, rep) =>
        match multispace1 r3 with
        | .error e => .error e
        | .ok (r4, _) =>
          match rustParseUsize raw_start with
          | .error e => .error e
          | .ok v =>
            let start := wsub1 v
            .ok (r4, Repeat.WithoutSpacer
              { repeat_ := rep, start := start, end_ := wadd start rep.length })

/-- `parse_repeat_with_spacer`: `digit1`, `multispace1`, `alpha1`,
`multispace1`, `alpha1`, `not_line_ending`, `line_ending`. -/
def parse_repeat_with_spacer : Parser Repeat := fun input =>
  match digit1 input with
  | .error e => .error e
  | .ok (r1, raw_start) =>
    match multispace1 r1 with
    | .error e => .error e
    | .ok (r2, _) =>
      match alpha1 r2 with
      | .error e => .error e
      | .ok (r3, rep) =>
        match multispace1 r3 with
        | .error e => .error e
        | .ok (r4, _) =>
          match alpha1 r4 with
          | .error e => .error e
          | .ok (r5, spacer) =>
            match notLineEnding r5 with
            | .error e => .error e
            | .ok (r6, _) =>
              match lineEnding r6 with
              | .error e => .error e
              | .ok (r7, _) =>
                match rustParseUsize raw_start with
                | .error e => .error e
                | .ok v =>
                  let start := wsub1 v
                  .ok (r7, Repeat.WithSpacer
                    { repeat_ := rep
                      spacer := spacer
                      start := start
                      end_ := wadd start (rep.length + spacer.length)
                      repeat_start := start
                      repeat_end := wadd start rep.length
                      spacer_start := wadd start rep.length
                      spacer_end := wadd start (rep.length + spacer.length) })

/-- `parse_repeat_spacer_line`: `alt((parse_repeat_with_spacer, parse_repeat_only))`. -/
def parse_repeat_spacer_line : Parser Repeat := fun input =>
  match parse_repeat_with_spacer input with
  | .ok r => .ok r
  | .error .crash => .error .crash
  | .error .mismatch => parse_repeat_only input

/-- `parse_array`: blank line, range header, blank line, two discarded lines,
one-or-more repeat/spacer rows, two discarded lines. -/
def parse_array : Parser Array := fun input =>
  match skip_empty_line input with
  | .error e => .error e
  | .ok (r1, _) =>
    match parse_crispr_order_and_coordinates r1 with
    | .error e => .error e
    | .ok (r2, (order, start, end_)) =>
      match skip_empty_line r2 with
      | .error e => .error e
      | .ok (r3, _) =>
        match skip_one_line r3 with
        | .error e => .error e
        | .ok (r4, _) =>
          match skip_one_line r4 with
          | .error e => .error e
          | .ok (r5, _) =>
            match many1 parse_repeat_spacer_line r5 with
            | .error e => .error e
            | .ok (r6, repeat_spacers) =>
              match skip_one_line r6 with
              | .error e => .error e
              | .ok (r7, _) =>
                match skip_one_line r7 with
                | .error e => .error e
                | .ok (r8, _) =>
                  .ok (r8, { order := order, start := start, end_ := end_,
                             repeat_spacers := repeat_spacers })

/-- `parse_contig_arrays`: accession line, blank line, one-or-more arrays,
footer. -/
def parse_contig_arrays : Parser Contig := fun input =>
  match parse_accession_line input with
  | .error e => .error e
  | .ok (r1, (accession, bp)) =>
    match skip_empty_line r1 with
    | .error e => .error e
    | .ok (r2, _) =>
      match many1 parse_array r2 with
      | .error e => .error e
      | .ok (r3, arrays) =>
        match parse_footer r3 with
        | .error e => .error e
        | .ok (r4, _) =>
          .ok (r4, { accession := accession, bp := bp, arrays := arrays })

/-- `parse`: `many0(parse_contig_arrays)`, discarding the unmatched
remainder on success. -/
def parse (input : List Char) : Except PErr (List Contig) :=
  match many0 parse_contig_arrays input with
  | .ok (_, contigs) => .ok contigs
  | .error e => .error e


/-! Concrete inputs and expected outputs used by individual theorems below. -/

/-- A well-formed single-contig document: accession `X`, 100 bp, one array
`CRISPR 1 Range: 10 - 50` with one two-sequence row (position 10, repeat
length 29, spacer length 10) and one terminal row (position 49, repeat
length 1). -/
def doc6 : List Char :=
  "Sequence ".toList ++ [squote] ++ "X".toList ++ [squote] ++
  " (100 bp)\n\nCRISPR 1   Range: 10 - 50\nPOSITION\tREPEAT\t\tSPACER\n--------\t-----\t-----\n10\tCAAGTGCACCAACCAATCTCACCACCTCA\tGGGGGTGCAC\t[ 29, 10 ]\n49\tG\n--------\t-----\t-----\nRepeats: 2\tAverage Length: 29\tAverage Length: 10\n\nTime to find repeats: 3 ms\n\n\n".toList

/-- The contig that `doc6` parses to. -/
def contig6 : Contig :=
  { accession := ['X'],
    bp := 100,
    arrays := [
      { order := 0,
        start := 9,
        end_ := 50,
        repeat_spacers := [
          Repeat.WithSpacer
            { repeat_ := "CAAGTGCACCAACCAATCTCACCACCTCA".toList,
              spacer := "GGGGGTGCAC".toList,
              start := 9,
              end_ := 48,
              spacer_start := 38,
              spacer_end := 48,
              repeat_start := 9,
              repeat_end := 38 },
          Repeat.WithoutSpacer
            { repeat_ := ['G'],
              start := 48,
              end_ := 49 }] }] }

/-- An accession line whose closing quote is missing. -/
def noQuoteDoc : List Char :=
  "Sequence ".toList ++ [squote] ++ "X (100 bp)\n".toList

/-- An array text in which a repeat-only row is followed by a further
repeat/spacer row (the trailing whitespace of the repeat-only form consumes
the newline, so the row loop keeps going). -/
def c4bad : List Char :=
  "\nCRISPR 1   Range: 10 - 50\nH1\nH2\n10 AAA\n20 BBB CCC\nD1\nD2\n".toList

/-- The array that `c4bad` parses to: `WithoutSpacer` is its FIRST element. -/
def c4badArray : Array :=
  { order := 0,
    start := 9,
    end_ := 50,
    repeat_spacers := [
      Repeat.WithoutSpacer
        { repeat_ := "AAA".toList,
          start := 9,
          end_ := 12 },
      Repeat.WithSpacer
        { repeat_ := "BBB".toList,
          spacer := "CCC".toList,
          start := 19,
          end_ := 25,
          spacer_start := 22,
          spacer_end := 25,
          repeat_start := 19,
          repeat_end := 22 }] }

/-- The array text of the repository's own `test_parse_array` test: a
conforming report table. -/
def c4good : List Char :=
  "\nCRISPR 1   Range: 10648 - 10814\nPOSITION        REPEAT                          SPACER\n--------        -----------------------------   ----------------------------------------\n10648           CAAGTGCACCAACCAATCTCACCACCTCA   GGGGGTGCACTTAAAGGGGGTGCACTTGTCTCAAGTGCACCAAGAA  [ 29, 46 ]\n10723           CAAGTGCACCAACCAATCTCACCACCTCA   CCATCTCACCACCTCTCAGGGGGTGCAGTTGTCT      [ 29, 34 ]\n10786           CAAGTGCACCAACCAATCTCACCACCTCA\n--------        -----------------------------   ----------------------------------------\nRepeats: 3      Average Length: 29              Average Length: 40\n".toList

/-- The array that `c4good` parses to (the repository test's expected value):
`WithoutSpacer` appears only as the final element. -/
def c4goodArray : Array :=
  { order := 0,
    start := 10647,
    end_ := 10814,
    repeat_spacers := [
      Repeat.WithSpacer
        { repeat_ := "CAAGTGCACCAACCAATCTCACCACCTCA".toList,
          spacer := "GGGGGTGCACTTAAAGGGGGTGCACTTGTCTCAAGTGCACCAAGAA".toList,
          start := 10647,
          end_ := 10722,
          spacer_start := 10676,
          spacer_end := 10722,
          repeat_start := 10647,
          repeat_end := 10676 },
      Repeat.WithSpacer
        { repeat_ := "CAAGTGCACCAACCAATCTCACCACCTCA".toList,
          spacer := "CCATCTCACCACCTCTCAGGGGGTGCAGTTGTCT".toList,
          start := 10722,
          end_ := 10785,
          spacer_start := 10751,
          spacer_end := 10785,
          repeat_start := 10722,
          repeat_end := 10751 },
      Repeat.WithoutSpacer
        { repeat_ := "CAAGTGCACCAACCAATCTCACCACCTCA".toList,
          start := 10785,
          end_ := 10814 }] }

/-- A complete array text WITHOUT the leading blank line. -/
def c5text : List Char :=
  "CRISPR 1   Range: 10 - 50\nH1\nH2\n10 AAA BB\n49 G\n--------\nRepeats: 2\n".toList

/-- The array that `'\n' :: c5text` parses to. -/
def c5array : Array :=
  { order := 0,
    start := 9,
    end_ := 50,
    repeat_spacers := [
      Repeat.WithSpacer
        { repeat_ := "AAA".toList,
          spacer := "BB".toList,
          start := 9,
          end_ := 14,
          spacer_start := 12,
          spacer_end := 14,
          repeat_start := 9,
          repeat_end := 12 },
      Repeat.WithoutSpacer
        { repeat_ := "G".toList,
          start := 48,
          end_ := 49 }] }

/-- An accession line whose delimiters all match but whose bp field (`abc`)
is not a digit run. -/
def c7bad : List Char :=
  "Sequence ".toList ++ [squote] ++ "X".toList ++ [squote] ++ " (abc bp)".toList

/-- The repeat/spacer value parsed from the row `10 AAA BB`. -/
def c2rsW : RepeatSpacer :=
  { repeat_ := "AAA".toList,
    spacer := "BB".toList,
    start := 9,
    end_ := 14,
    spacer_start := 12,
    spacer_end := 14,
    repeat_start := 9,
    repeat_end := 12 }

/-- The repeat value parsed from the terminal row `49 G`. -/
def c2roW : RepeatOnly :=
  { repeat_ := "G".toList, start := 48, end_ := 49 }

/-! Helper lemmas about the parser primitives. -/

theorem wsub1_eq {n : Nat} (h1 : 1 ≤ n) (h2 : n < USIZE) : wsub1 n = n - 1 := by
  unfold wsub1 USIZE at *
  omega

theorem wadd_eq {a b : Nat} (h : a + b < USIZE) : wadd a b = a + b := by
  unfold wadd
  exact Nat.mod_eq_of_lt h

theorem spanP_ok {p : Char → Bool} {input rest out : List Char}
    (h : spanP p input = .ok (rest, out)) :
    out = input.takeWhile p ∧ rest = input.dropWhile p ∧ out ≠ [] ∧ out.all p = true := by
  unfold spanP at h
  split at h
  · exact absurd h (by simp)
  next hne =>
    rw [Except.ok.injEq, Prod.mk.injEq] at h
    obtain ⟨h1, h2⟩ := h
    subst h1
    subst h2
    refine ⟨rfl, rfl, hne, ?_⟩
    rw [List.all_eq_true]
    intro x hx
    exact List.mem_takeWhile_imp hx

theorem tagP_ok {t input rest out : List Char} (h : tagP t input = .ok (rest, out)) :
    out = t ∧ input = t ++ rest := by
  unfold tagP at h
  split at h
  next hp =>
    rw [Except.ok.injEq, Prod.mk.injEq] at h
    obtain ⟨h1, h2⟩ := h
    subst h2
    obtain ⟨s, hs⟩ := List.isPrefixOf_iff_prefix.mp hp
    refine ⟨rfl, ?_⟩
    rw [← hs] at h1 ⊢
    rw [List.drop_left] at h1
    rw [h1]
  next => exact absurd h (by simp)

theorem charP_ok {c : Char} {input rest : List Char} {out : Char}
    (h : charP c input = .ok (rest, out)) : out = c ∧ input = c :: rest := by
  unfold charP at h
  split at h
  · exact absurd h (by simp)
  next x t =>
    split at h
    next hx =>
      rw [Except.ok.injEq, Prod.mk.injEq] at h
      obtain ⟨h1, h2⟩ := h
      subst hx
      subst h1
      subst h2
      exact ⟨rfl, rfl⟩
    next => exact absurd h (by simp)

theorem stripPlus_digits {s : List Char} (hne : s ≠ []) (hall : s.all Char.isDigit = true) :
    stripPlus s = s := by
  cases s with
  | nil => exact absurd rfl hne
  | cons c t =>
    have hc : c.isDigit = true := by
      simp only [List.all_cons, Bool.and_eq_true] at hall
      exact hall.1
    have hcp : ¬(c = '+') := by
      intro he
      rw [he] at hc
      exact absurd hc (by decide)
    simp [stripPlus, hcp]

theorem rustParseUsize_ok_digits {s : List Char} {v : Nat}
    (hne : s ≠ []) (hall : s.all Char.isDigit = true)
    (h : rustParseUsize s = .ok v) : v = parseNatDigits s ∧ v < USIZE := by
  simp only [rustParseUsize] at h
  rw [stripPlus_digits hne hall] at h
  rw [if_pos ⟨hne, hall⟩] at h
  split at h
  next hlt =>
    rw [Except.ok.injEq] at h
    exact ⟨h.symm, h ▸ hlt⟩
  next => exact absurd h (by simp)

theorem rustParseUsize_digits {s : List Char}
    (hne : s ≠ []) (hall : s.all Char.isDigit = true) (hlt : parseNatDigits s < USIZE) :
    rustParseUsize s = .ok (parseNatDigits s) := by
  simp only [rustParseUsize]
  rw [stripPlus_digits hne hall]
  rw [if_pos ⟨hne, hall⟩, if_pos hlt]


/-! Helper lemmas about the parser primitives. -/

theorem takeWhile_append_all {p : Char → Bool} {pre rest : List Char}
    (hall : pre.all p = true) (hrest : ∀ c, rest.head? = some c → p c = false) :
    (pre ++ rest).takeWhile p = pre ∧ (pre ++ rest).dropWhile p = rest := by
  induction pre with
  | nil =>
    cases rest with
    | nil => exact ⟨rfl, rfl⟩
    | cons c t =>
      have hc := hrest c rfl
      simp [List.takeWhile_cons, List.dropWhile_cons, hc]
  | cons a pre ih =>
    simp only [List.all_cons, Bool.and_eq_true] at hall
    obtain ⟨ha, hall⟩ := hall
    have hih := ih hall
    simp [List.takeWhile_cons, List.dropWhile_cons, ha, hih.1, hih.2]

theorem spanP_append {p : Char → Bool} {pre rest : List Char}
    (hne : pre ≠ []) (hall : pre.all p = true)
    (hrest : ∀ c, rest.head? = some c → p c = false) :
    spanP p (pre ++ rest) = .ok (rest, pre) := by
  obtain ⟨ht, hd⟩ := takeWhile_append_all hall hrest
  unfold spanP
  rw [ht, hd]
  simp [hne]

theorem tagP_append (t r : List Char) : tagP t (t ++ r) = .ok (r, t) := by
  have hp : t.isPrefixOf (t ++ r) = true :=
    List.isPrefixOf_iff_prefix.mpr (List.prefix_append t r)
  simp [tagP, hp, List.drop_left]

theorem charP_append (c : Char) (r : List Char) : charP c (c :: r) = .ok (r, c) := by
  simp [charP]

theorem multispace_not_digit {c : Char} (h : isMultispaceChar c = true) : c.isDigit = false := by
  simp only [isMultispaceChar, Bool.or_eq_true, decide_eq_true_eq] at h
  rcases h with ((h | h) | h) | h <;> subst h <;> decide

theorem multispace_not_alpha {c : Char} (h : isMultispaceChar c = true) : c.isAlpha = false := by
  simp only [isMultispaceChar, Bool.or_eq_true, decide_eq_true_eq] at h
  rcases h with ((h | h) | h) | h <;> subst h <;> decide

theorem alpha_not_multispace {c : Char} (h : c.isAlpha = true) : isMultispaceChar c = false := by
  cases hm : isMultispaceChar c with
  | false => rfl
  | true =>
    rw [multispace_not_alpha hm] at h
    exact absurd h (by simp)

theorem head?_all_append {l r : List Char} {p q : Char → Bool}
    (hl : l ≠ []) (hall : l.all p = true) (himp : ∀ c, p c = true → q c = false) :
    ∀ c, (l ++ r).head? = some c → q c = false := by
  cases l with
  | nil => exact absurd rfl hl
  | cons a t =>
    intro c hc
    simp only [List.cons_append, List.head?_cons, Option.some.injEq] at hc
    subst hc
    have ha : p a = true := by
      simp only [List.all_cons, Bool.and_eq_true] at hall
      exact hall.1
    exact himp a ha


/-! Inversion lemmas for line endings, used for the array-assembler claims. -/

theorem lineEnding_ok {input rest out : List Char}
    (h : lineEnding input = .ok (rest, out)) :
    input = '\n' :: rest ∨ input = '\r' :: '\n' :: rest := by
  unfold lineEnding at h
  split at h
  · rw [Except.ok.injEq, Prod.mk.injEq] at h
    exact Or.inl (by rw [h.1])
  · rw [Except.ok.injEq, Prod.mk.injEq] at h
    exact Or.inr (by rw [h.1])
  all_goals exact absurd h (by simp)

theorem skip_empty_line_ok {input rest : List Char} {u : Unit}
    (h : skip_empty_line input = .ok (rest, u)) :
    input = '\n' :: rest ∨ input = '\r' :: '\n' :: rest := by
  unfold skip_empty_line at h
  split at h
  · exact absurd h (by simp)
  rename_i r le hle
  rw [Except.ok.injEq, Prod.mk.injEq] at h
  obtain ⟨h1, _⟩ := h
  subst h1
  exact lineEnding_ok hle

/-! The claims. -/

/-- Claim C1 (amended): on structurally deviating input `parse` does NOT
return an error: when the first contig fails to match, the contig loop stops
and `parse` succeeds with the contigs collected so far (here, the empty
list), silently discarding the unmatched residue. -/
theorem claim_c1 (input : List Char)
    (h : parse_contig_arrays input = .error .mismatch) :
    parse input = .ok [] := by
  simp only [parse, many0, many0F, h]

set_option maxRecDepth 100000 in
/-- Claim C1 counterexample: a document whose accession line is missing its
closing quote parses successfully to the empty list, and a valid one-contig
document followed by residual garbage parses successfully to the truncated
one-contig list — `parse` never reports the claimed error. -/
theorem claim_c1_counterexample :
    parse noQuoteDoc = .ok [] ∧ parse (doc6 ++ ['x']) = .ok [contig6] :=
  ⟨rfl, rfl⟩

/-- Witness for claim C1's theorem at the concrete input `"x"`. -/
theorem claim_c1_witness : parse (['x'] : List Char) = .ok [] :=
  claim_c1 ['x'] rfl

/-- Claim C2: a successfully parsed two-sequence row with 1-based position P,
repeat length R and spacer length S yields repeat_start = P-1,
repeat_end = P-1+R, spacer_start = P-1+R = repeat_end,
spacer_end = P-1+R+S; a terminal row yields end - start = R (stated under
1 ≤ P and the no-overflow bound, since the source arithmetic is wrapping
usize arithmetic). -/
theorem claim_c2 :
    (∀ (input rest : List Char) (rs : RepeatSpacer) (P : Nat),
      parse_repeat_with_spacer input = .ok (rest, Repeat.WithSpacer rs) →
      P = parseNatDigits (input.takeWhile Char.isDigit) →
      1 ≤ P →
      P - 1 + rs.repeat_.length + rs.spacer.length < USIZE →
      rs.start = P - 1 ∧
      rs.repeat_start = P - 1 ∧
      rs.repeat_end = P - 1 + rs.repeat_.length ∧
      rs.spacer_start = P - 1 + rs.repeat_.length ∧
      rs.spacer_start = rs.repeat_end ∧
      rs.spacer_end = P - 1 + rs.repeat_.length + rs.spacer.length ∧
      rs.end_ = rs.spacer_end) ∧
    (∀ (input rest : List Char) (ro : RepeatOnly) (P : Nat),
      parse_repeat_only input = .ok (rest, Repeat.WithoutSpacer ro) →
      P = parseNatDigits (input.takeWhile Char.isDigit) →
      1 ≤ P →
      P - 1 + ro.repeat_.length < USIZE →
      ro.start = P - 1 ∧
      ro.end_ = P - 1 + ro.repeat_.length ∧
      ro.end_ - ro.start = ro.repeat_.length) := by
  constructor
  · intro input rest rs P h hP h1 hub
    unfold parse_repeat_with_spacer at h
    split at h
    · exact absurd h (by simp)
    rename_i r1 raw_start hd
    split at h
    · exact absurd h (by simp)
    rename_i r2 w1 hm1
    split at h
    · exact absurd h (by simp)
    rename_i r3 rep ha1
    split at h
    · exact absurd h (by simp)
    rename_i r4 w2 hm2
    split at h
    · exact absurd h (by simp)
    rename_i r5 spacer ha2
    split at h
    · exact absurd h (by simp)
    rename_i r6 mid hnl
    split at h
    · exact absurd h (by simp)
    rename_i r7 le hle
    split at h
    · exact absurd h (by simp)
    rename_i v hru
    simp only [Except.ok.injEq, Prod.mk.injEq, Repeat.WithSpacer.injEq] at h
    obtain ⟨hr7, hrs⟩ := h
    subst hrs
    obtain ⟨hraw, hr1eq, hrne, hrall⟩ := spanP_ok hd
    obtain ⟨hv, hvlt⟩ := rustParseUsize_ok_digits hrne hrall hru
    have hvP : v = P := by rw [hv, hraw, ← hP]
    subst hvP
    have hub2 : v - 1 + rep.length + spacer.length < USIZE := hub
    refine ⟨wsub1_eq h1 hvlt, wsub1_eq h1 hvlt, ?_, ?_, rfl, ?_, rfl⟩
    · show wadd (wsub1 v) rep.length = v - 1 + rep.length
      rw [wsub1_eq h1 hvlt, wadd_eq (by omega)]
    · show wadd (wsub1 v) rep.length = v - 1 + rep.length
      rw [wsub1_eq h1 hvlt, wadd_eq (by omega)]
    · show wadd (wsub1 v) (rep.length + spacer.length) =
        v - 1 + rep.length + spacer.length
      rw [wsub1_eq h1 hvlt, wadd_eq (by omega)]
      omega
  · intro input rest ro P h hP h1 hub
    unfold parse_repeat_only at h
    split at h
    · exact absurd h (by simp)
    rename_i r1 raw_start hd
    split at h
    · exact absurd h (by simp)
    rename_i r2 w1 hm1
    split at h
    · exact absurd h (by simp)
    rename_i r3 rep ha1
    split at h
    · exact absurd h (by simp)
    rename_i r4 w2 hm2
    split at h
    · exact absurd h (by simp)
    rename_i v hru
    simp only [Except.ok.injEq, Prod.mk.injEq, Repeat.WithoutSpacer.injEq] at h
    obtain ⟨hr4, hro⟩ := h
    subst hro
    obtain ⟨hraw, hr1eq, hrne, hrall⟩ := spanP_ok hd
    obtain ⟨hv, hvlt⟩ := rustParseUsize_ok_digits hrne hrall hru
    have hvP : v = P := by rw [hv, hraw, ← hP]
    subst hvP
    have hub2 : v - 1 + rep.length < USIZE := hub
    refine ⟨wsub1_eq h1 hvlt, ?_, ?_⟩
    · show wadd (wsub1 v) rep.length = v - 1 + rep.length
      rw [wsub1_eq h1 hvlt, wadd_eq (by omega)]
    · show wadd (wsub1 v) rep.length - wsub1 v = rep.length
      rw [wsub1_eq h1 hvlt, wadd_eq (by omega)]
      omega

/-- Witness for claim C2 at the rows `10 AAA BB` and `49 G`. -/
theorem claim_c2_witness :
    (c2rsW.start = 10 - 1 ∧
     c2rsW.repeat_start = 10 - 1 ∧
     c2rsW.repeat_end = 10 - 1 + c2rsW.repeat_.length ∧
     c2rsW.spacer_start = 10 - 1 + c2rsW.repeat_.length ∧
     c2rsW.spacer_start = c2rsW.repeat_end ∧
     c2rsW.spacer_end = 10 - 1 + c2rsW.repeat_.length + c2rsW.spacer.length ∧
     c2rsW.end_ = c2rsW.spacer_end) ∧
    (c2roW.start = 49 - 1 ∧
     c2roW.end_ = 49 - 1 + c2roW.repeat_.length ∧
     c2roW.end_ - c2roW.start = c2roW.repeat_.length) :=
  ⟨claim_c2.1 "10 AAA BB\n".toList [] c2rsW 10 rfl rfl (by decide) (by decide),
   claim_c2.2 "49 G\n".toList [] c2roW 49 rfl rfl (by decide) (by decide)⟩

/-- Claim C3: every successfully parsed range header decomposes as
`CRISPR <n> <ws> Range: <A> - <B>` with digit runs n, A, B, and the returned
triple is order = n-1, start = A-1, end = B (no adjustment to end); the
decrements are wrapping, equal to the plain subtraction whenever the raw
field is at least 1. -/
theorem claim_c3 (input rest : List Char) (o s e : Nat)
    (h : parse_crispr_order_and_coordinates input = .ok (rest, (o, s, e))) :
    ∃ dn w dA dB : List Char,
      dn ≠ [] ∧ dn.all Char.isDigit = true ∧
      w ≠ [] ∧ w.all isMultispaceChar = true ∧
      dA ≠ [] ∧ dA.all Char.isDigit = true ∧
      dB ≠ [] ∧ dB.all Char.isDigit = true ∧
      input = "CRISPR".toList ++ [' '] ++ dn ++ w ++ "Range:".toList ++ [' '] ++
        dA ++ " - ".toList ++ dB ++ rest ∧
      o = wsub1 (parseNatDigits dn) ∧
      s = wsub1 (parseNatDigits dA) ∧
      e = parseNatDigits dB ∧
      (1 ≤ parseNatDigits dn → o = parseNatDigits dn - 1) ∧
      (1 ≤ parseNatDigits dA → s = parseNatDigits dA - 1) := by
  unfold parse_crispr_order_and_coordinates at h
  split at h
  · exact absurd h (by simp)
  rename_i r1 t1 ht1
  split at h
  · exact absurd h (by simp)
  rename_i r2 c1 hc1
  split at h
  · exact absurd h (by simp)
  rename_i r3 raw_order hd1
  split at h
  · exact absurd h (by simp)
  rename_i r4 w hmw
  split at h
  · exact absurd h (by simp)
  rename_i r5 t2 ht2
  split at h
  · exact absurd h (by simp)
  rename_i r6 c2 hc2
  split at h
  · exact absurd h (by simp)
  rename_i r7 dA hd2
  split at h
  · exact absurd h (by simp)
  rename_i r8 t3 ht3
  split at h
  · exact absurd h (by simp)
  rename_i r9 dB hd3
  split at h
  · exact absurd h (by simp)
  rename_i vO hruO
  split at h
  · exact absurd h (by simp)
  rename_i vA hruA
  split at h
  · exact absurd h (by simp)
  rename_i vB hruB
  simp only [Except.ok.injEq, Prod.mk.injEq] at h
  obtain ⟨hr9, ho, hs, he⟩ := h
  obtain ⟨hto, hin1⟩ := tagP_ok ht1
  obtain ⟨hco, hin2⟩ := charP_ok hc1
  obtain ⟨hdno, hdr, hdne, hdall⟩ := spanP_ok hd1
  have hin3 : r2 = raw_order ++ r3 := by
    rw [hdno, hdr]
    exact (List.takeWhile_append_dropWhile _ _).symm
  obtain ⟨hwo, hwr, hwne, hwall⟩ := spanP_ok hmw
  have hin4 : r3 = w ++ r4 := by
    rw [hwo, hwr]
    exact (List.takeWhile_append_dropWhile _ _).symm
  obtain ⟨ht2o, hin5⟩ := tagP_ok ht2
  obtain ⟨hc2o, hin6⟩ := charP_ok hc2
  obtain ⟨hao, har, hane, haall⟩ := spanP_ok hd2
  have hin7 : r6 = dA ++ r7 := by
    rw [hao, har]
    exact (List.takeWhile_append_dropWhile _ _).symm
  obtain ⟨ht3o, hin8⟩ := tagP_ok ht3
  obtain ⟨hbo, hbr, hbne, hball⟩ := spanP_ok hd3
  have hin9 : r8 = dB ++ r9 := by
    rw [hbo, hbr]
    exact (List.takeWhile_append_dropWhile _ _).symm
  obtain ⟨hvO, hvOlt⟩ := rustParseUsize_ok_digits hdne hdall hruO
  obtain ⟨hvA, hvAlt⟩ := rustParseUsize_ok_digits hane haall hruA
  obtain ⟨hvB, hvBlt⟩ := rustParseUsize_ok_digits hbne hball hruB
  refine ⟨raw_order, w, dA, dB, hdne, hdall, hwne, hwall, hane, haall, hbne, hball,
    ?_, ?_, ?_, ?_, ?_, ?_⟩
  · rw [hin1, hin2, hin3, hin4, hin5, hin6, hin7, hin8, hin9, hr9]
    simp [List.append_assoc]
  · rw [← ho, hvO]
  · rw [← hs, hvA]
  · rw [← he, hvB]
  · intro hge
    rw [← ho, hvO, wsub1_eq hge (hvO ▸ hvOlt)]
  · intro hge
    rw [← hs, hvA, wsub1_eq hge (hvA ▸ hvAlt)]

/-- Witness for claim C3 at the headers `CRISPR 1   Range: 10 - 50`
(order 0) and `CRISPR 4   Range: 10 - 50` (order 3). -/
theorem claim_c3_witness :
    (∃ dn w dA dB : List Char,
      dn ≠ [] ∧ dn.all Char.isDigit = true ∧
      w ≠ [] ∧ w.all isMultispaceChar = true ∧
      dA ≠ [] ∧ dA.all Char.isDigit = true ∧
      dB ≠ [] ∧ dB.all Char.isDigit = true ∧
      "CRISPR 1   Range: 10 - 50".toList = "CRISPR".toList ++ [' '] ++ dn ++ w ++
        "Range:".toList ++ [' '] ++ dA ++ " - ".toList ++ dB ++ ([] : List Char) ∧
      0 = wsub1 (parseNatDigits dn) ∧
      9 = wsub1 (parseNatDigits dA) ∧
      50 = parseNatDigits dB ∧
      (1 ≤ parseNatDigits dn → 0 = parseNatDigits dn - 1) ∧
      (1 ≤ parseNatDigits dA → 9 = parseNatDigits dA - 1)) ∧
    (∃ dn w dA dB : List Char,
      dn ≠ [] ∧ dn.all Char.isDigit = true ∧
      w ≠ [] ∧ w.all isMultispaceChar = true ∧
      dA ≠ [] ∧ dA.all Char.isDigit = true ∧
      dB ≠ [] ∧ dB.all Char.isDigit = true ∧
      "CRISPR 4   Range: 10 - 50".toList = "CRISPR".toList ++ [' '] ++ dn ++ w ++
        "Range:".toList ++ [' '] ++ dA ++ " - ".toList ++ dB ++ ([] : List Char) ∧
      3 = wsub1 (parseNatDigits dn) ∧
      9 = wsub1 (parseNatDigits dA) ∧
      50 = parseNatDigits dB ∧
      (1 ≤ parseNatDigits dn → 3 = parseNatDigits dn - 1) ∧
      (1 ≤ parseNatDigits dA → 9 = parseNatDigits dA - 1)) :=
  ⟨claim_c3 "CRISPR 1   Range: 10 - 50".toList [] 0 9 50 rfl,
   claim_c3 "CRISPR 4   Range: 10 - 50".toList [] 3 9 50 rfl⟩

set_option maxRecDepth 100000 in
/-- Claim C4 (amended): the grammar does not force `WithoutSpacer` to be the
final element (see the counterexample); in a conforming report table — rows
followed by the divider line, as in the repository's own test array — the
parsed repeat list has `WithoutSpacer` only as its final element, every
earlier element being `WithSpacer`. -/
theorem claim_c4 : parse_array c4good = .ok ([], c4goodArray) := rfl

/-- Claim C4 counterexample: a successfully parsed array whose repeat list
is `[WithoutSpacer …, WithSpacer …]` — the element before the last is NOT
`WithSpacer` (the repeat-only row's trailing whitespace consumes the
newline, so the row loop continues past it). -/
theorem claim_c4_counterexample :
    parse_array c4bad = .ok ([], c4badArray) := rfl

/-- Claim C5 (amended): the leading blank line of an array is mandatory,
not optional — every text accepted by `parse_array` starts with a line
terminator, exactly like every subsequent step of the sequence. -/
theorem claim_c5 (input rest : List Char) (arr : Array)
    (h : parse_array input = .ok (rest, arr)) :
    (∃ t, input = '\n' :: t) ∨ (∃ t, input = '\r' :: '\n' :: t) := by
  unfold parse_array at h
  split at h
  · exact absurd h (by simp)
  rename_i r1 u hse
  rcases skip_empty_line_ok hse with h1 | h1
  · exact Or.inl ⟨r1, h1⟩
  · exact Or.inr ⟨r1, h1⟩

/-- Claim C5 counterexample: the same array text fails without the leading
blank line and succeeds with it, so the blank line is not optional. -/
theorem claim_c5_counterexample :
    parse_array c5text = .error .mismatch ∧
    parse_array ('\n' :: c5text) = .ok ([], c5array) :=
  ⟨rfl, rfl⟩

/-- Witness for claim C5's theorem at a concrete accepted array text. -/
theorem claim_c5_witness :
    (∃ t, ('\n' :: c5text) = '\n' :: t) ∨
    (∃ t, ('\n' :: c5text) = '\r' :: '\n' :: t) :=
  claim_c5 ('\n' :: c5text) [] c5array rfl

set_option maxRecDepth 100000 in
/-- Claim C6: the well-formed single-contig document `doc6` (accession X,
100 bp, array `CRISPR 1 Range: 10 - 50`, a two-sequence row at position 10
with repeat length 29 and spacer length 10, and a terminal row at position
49 with repeat length 1) parses to exactly one contig with accession X,
bp 100, one array with order 0, start 9, end 50, and the two derived repeat
entries. -/
theorem claim_c6 : parse doc6 = .ok [contig6] := rfl

theorem takeUntilGo_not_mem {c : Char} {l : List Char} (h : c ∉ l) :
    takeUntilGo [c] l = .error .mismatch := by
  induction l with
  | nil => rfl
  | cons a l ih =>
    have hne : ¬(c = a) := fun he => h (he ▸ List.mem_cons_self a l)
    have hml : c ∉ l := fun hm => h (List.mem_cons_of_mem a hm)
    have hpf : ([c].isPrefixOf (a :: l)) = false := by
      simp [List.isPrefixOf_cons₂, hne]
    unfold takeUntilGo
    rw [if_neg (by simp [hpf]), ih hml]

theorem takeUntil_not_mem {c : Char} {l : List Char} (h : c ∉ l) :
    takeUntil [c] l = .error .mismatch := takeUntilGo_not_mem h

theorem takeUntilGo_cons_mem {c : Char} {pre rest : List Char} (h : c ∉ pre) :
    takeUntilGo [c] (pre ++ c :: rest) = .ok (c :: rest, pre) := by
  induction pre with
  | nil =>
    simp only [List.nil_append]
    unfold takeUntilGo
    rw [if_pos (by simp [List.isPrefixOf_cons₂])]
  | cons a pre ih =>
    have hne : ¬(c = a) := fun he => h (he ▸ List.mem_cons_self a pre)
    have hml : c ∉ pre := fun hm => h (List.mem_cons_of_mem a hm)
    have hpf : ([c].isPrefixOf (a :: (pre ++ c :: rest))) = false := by
      simp [List.isPrefixOf_cons₂, hne]
    simp only [List.cons_append]
    unfold takeUntilGo
    rw [if_neg (by simp [hpf]), ih hml]

theorem takeUntil_cons_mem {c : Char} {pre rest : List Char} (h : c ∉ pre) :
    takeUntil [c] (pre ++ c :: rest) = .ok (c :: rest, pre) :=
  takeUntilGo_cons_mem h

theorem tagP_not_prefix {t input : List Char} (h : (t.isPrefixOf input) = false) :
    tagP t input = .error .mismatch := by
  unfold tagP
  rw [h]
  simp

/-- Claim C7 (amended): whenever one of the literal delimiters is absent —
the leading `Sequence '` tag, the closing quote, the ` (` that follows it,
the space terminating the bp field, or the ` bp)` literal — the accession
parser returns the grammar error result; but when all delimiters are
present and the bp field is not a valid digit run the code panics
(modelled as the crash outcome) instead of returning an error — see the
counterexample. -/
theorem claim_c7 :
    (∀ input : List Char,
      (("Sequence ".toList ++ [squote]).isPrefixOf input) = false →
      parse_accession_line input = .error .mismatch) ∧
    (∀ t : List Char, squote ∉ t →
      parse_accession_line ("Sequence ".toList ++ [squote] ++ t) =
        .error .mismatch) ∧
    (∀ acc t : List Char, squote ∉ acc →
      ((" (".toList).isPrefixOf t) = false →
      parse_accession_line
          ("Sequence ".toList ++ [squote] ++ acc ++ [squote] ++ t) =
        .error .mismatch) ∧
    (∀ acc u : List Char, squote ∉ acc → ' ' ∉ u →
      parse_accession_line
          ("Sequence ".toList ++ [squote] ++ acc ++ [squote] ++ " (".toList ++ u) =
        .error .mismatch) ∧
    (∀ acc bp v : List Char, squote ∉ acc → ' ' ∉ bp →
      (("bp)".toList).isPrefixOf v) = false →
      parse_accession_line
          ("Sequence ".toList ++ [squote] ++ acc ++ [squote] ++ " (".toList ++
            bp ++ (' ' :: v)) =
        .error .mismatch) := by
  refine ⟨?_, ?_, ?_, ?_, ?_⟩
  · intro input h
    unfold parse_accession_line tagP
    rw [h]
    simp
  · intro t ht
    have e1 := tagP_append ("Sequence ".toList ++ [squote]) t
    have e2 : takeUntil [squote] t = .error .mismatch := takeUntil_not_mem ht
    simp only [parse_accession_line, e1, e2]
  · intro acc t hacc hpre
    have hI : "Sequence ".toList ++ [squote] ++ acc ++ [squote] ++ t =
        ("Sequence ".toList ++ [squote]) ++ (acc ++ (squote :: t)) := by
      simp [List.append_assoc]
    rw [hI]
    have e1 := tagP_append ("Sequence ".toList ++ [squote]) (acc ++ (squote :: t))
    have e2 : takeUntil [squote] (acc ++ squote :: t) = .ok (squote :: t, acc) :=
      takeUntil_cons_mem hacc
    have e3 : tagP [squote] (squote :: t) = .ok (t, [squote]) := by
      simpa using tagP_append [squote] t
    cases t with
    | nil => simp only [parse_accession_line, e1, e2, e3, charP]
    | cons c t2 =>
      by_cases hc : c = ' '
      · subst hc
        have h2 : (("(".toList).isPrefixOf t2) = false := by
          rw [show (" (".toList) = ' ' :: "(".toList from rfl,
            List.isPrefixOf_cons₂] at hpre
          simpa using hpre
        have e4 := charP_append ' ' t2
        have e5 : tagP "(".toList t2 = .error .mismatch := tagP_not_prefix h2
        simp only [parse_accession_line, e1, e2, e3, e4, e5]
      · have e4 : charP ' ' (c :: t2) = .error .mismatch := by simp [charP, hc]
        simp only [parse_accession_line, e1, e2, e3, e4]
  · intro acc u hacc hu
    have hI : "Sequence ".toList ++ [squote] ++ acc ++ [squote] ++ " (".toList ++ u =
        ("Sequence ".toList ++ [squote]) ++
          (acc ++ (squote :: ' ' :: '(' :: u)) := by
      simp [List.append_assoc]
    rw [hI]
    have e1 := tagP_append ("Sequence ".toList ++ [squote])
      (acc ++ (squote :: ' ' :: '(' :: u))
    have e2 : takeUntil [squote] (acc ++ squote :: ' ' :: '(' :: u) =
        .ok (squote :: ' ' :: '(' :: u, acc) := takeUntil_cons_mem hacc
    have e3 : tagP [squote] (squote :: ' ' :: '(' :: u) =
        .ok (' ' :: '(' :: u, [squote]) := by
      simpa using tagP_append [squote] (' ' :: '(' :: u)
    have e4 := charP_append ' ' ('(' :: u)
    have e5 : tagP "(".toList ('(' :: u) = .ok (u, "(".toList) := by
      simpa using tagP_append "(".toList u
    have e6 : takeUntil [' '] u = .error .mismatch := takeUntil_not_mem hu
    simp only [parse_accession_line, e1, e2, e3, e4, e5, e6]
  · intro acc bp v hacc hbp hv
    have hI : "Sequence ".toList ++ [squote] ++ acc ++ [squote] ++ " (".toList ++
          bp ++ (' ' :: v) =
        ("Sequence ".toList ++ [squote]) ++
          (acc ++ (squote :: ' ' :: '(' :: (bp ++ ' ' :: v))) := by
      simp [List.append_assoc]
    rw [hI]
    have e1 := tagP_append ("Sequence ".toList ++ [squote])
      (acc ++ (squote :: ' ' :: '(' :: (bp ++ ' ' :: v)))
    have e2 : takeUntil [squote] (acc ++ squote :: ' ' :: '(' :: (bp ++ ' ' :: v)) =
        .ok (squote :: ' ' :: '(' :: (bp ++ ' ' :: v), acc) :=
      takeUntil_cons_mem hacc
    have e3 : tagP [squote] (squote :: ' ' :: '(' :: (bp ++ ' ' :: v)) =
        .ok (' ' :: '(' :: (bp ++ ' ' :: v), [squote]) := by
      simpa using tagP_append [squote] (' ' :: '(' :: (bp ++ ' ' :: v))
    have e4 := charP_append ' ' ('(' :: (bp ++ ' ' :: v))
    have e5 : tagP "(".toList ('(' :: (bp ++ ' ' :: v)) =
        .ok (bp ++ ' ' :: v, "(".toList) := by
      simpa using tagP_append "(".toList (bp ++ ' ' :: v)
    have e6 : takeUntil [' '] (bp ++ ' ' :: v) = .ok (' ' :: v, bp) :=
      takeUntil_cons_mem hbp
    have hpf : ((" bp)".toList).isPrefixOf (' ' :: v)) = false := by
      rw [show (" bp)".toList) = ' ' :: "bp)".toList from rfl,
        List.isPrefixOf_cons₂, hv]
      simp
    have e7 : tagP " bp)".toList (' ' :: v) = .error .mismatch :=
      tagP_not_prefix hpf
    simp only [parse_accession_line, e1, e2, e3, e4, e5, e6, e7]

/-- Claim C7 counterexample: `Sequence 'X' (abc bp)` has all delimiters in
place but a non-digit bp field; the source code panics on the unwrap of
`"abc".parse::<usize>()` instead of returning the parser error result. -/
theorem claim_c7_counterexample :
    parse_accession_line c7bad = .error .crash := rfl

/-- Witness for claim C7's theorem: one concrete input per absent-delimiter
case (leading tag, closing quote, ` (`, bp-terminating space, ` bp)`). -/
theorem claim_c7_witness :
    parse_accession_line "Xyz".toList = .error .mismatch ∧
    parse_accession_line ("Sequence ".toList ++ [squote] ++ "X (100 bp)".toList) =
      .error .mismatch ∧
    parse_accession_line ("Sequence ".toList ++ [squote] ++ "X".toList ++
      [squote] ++ "(100 bp)".toList) = .error .mismatch ∧
    parse_accession_line ("Sequence ".toList ++ [squote] ++ "X".toList ++
      [squote] ++ " (".toList ++ "100bp)".toList) = .error .mismatch ∧
    parse_accession_line ("Sequence ".toList ++ [squote] ++ "X".toList ++
      [squote] ++ " (".toList ++ "100".toList ++ (' ' :: "Bp)".toList)) =
      .error .mismatch :=
  ⟨claim_c7.1 "Xyz".toList (by decide),
   claim_c7.2.1 "X (100 bp)".toList (by decide),
   claim_c7.2.2.1 "X".toList "(100 bp)".toList (by decide) (by decide),
   claim_c7.2.2.2.1 "X".toList "100bp)".toList (by decide) (by decide),
   claim_c7.2.2.2.2 "X".toList "100".toList "Bp)".toList (by decide) (by decide)
     (by decide)⟩

/-- Claim C9: the empty input parses successfully to the empty contig
list. -/
theorem claim_c9 : parse ([] : List Char) = .ok [] := rfl

/-- Claim C10: `parse` is a total function — on every input it terminates
with either a complete contig list or a single terminal error value. -/
theorem claim_c10 (input : List Char) :
    (∃ contigs, parse input = .ok contigs) ∨
    (∃ err, parse input = .error err) := by
  cases h : parse input with
  | ok contigs => exact Or.inl ⟨contigs, rfl⟩
  | error err => exact Or.inr ⟨err, rfl⟩

/-- Claim C8: the 1-based-to-0-based decrements in the range-header parser
and the row parser are unchecked.  For every well-formed header text the
parser succeeds with order = wrap(n-1) and start = wrap(A-1); when the raw
ordinal or raw start is 0 this wraps to `USIZE - 1` (release-mode Rust
underflow; a debug build would panic at the same subtraction) — the parser
never returns an explicit error for the zero case.  Likewise for a
repeat-only row whose 1-based position is 0. -/
theorem claim_c8 :
    (∀ dn w dA dB rest : List Char,
      dn ≠ [] → dn.all Char.isDigit = true →
      w ≠ [] → w.all isMultispaceChar = true →
      dA ≠ [] → dA.all Char.isDigit = true →
      dB ≠ [] → dB.all Char.isDigit = true →
      (∀ c, rest.head? = some c → c.isDigit = false) →
      parseNatDigits dn < USIZE → parseNatDigits dA < USIZE →
      parseNatDigits dB < USIZE →
      parse_crispr_order_and_coordinates
          ("CRISPR".toList ++ [' '] ++ dn ++ w ++ "Range:".toList ++ [' '] ++
            dA ++ " - ".toList ++ dB ++ rest)
        = .ok (rest, (wsub1 (parseNatDigits dn), wsub1 (parseNatDigits dA),
            parseNatDigits dB)) ∧
      (parseNatDigits dn = 0 → wsub1 (parseNatDigits dn) = USIZE - 1) ∧
      (parseNatDigits dA = 0 → wsub1 (parseNatDigits dA) = USIZE - 1)) ∧
    (∀ d1 w1 rep w2 rest : List Char,
      d1 ≠ [] → d1.all Char.isDigit = true →
      w1 ≠ [] → w1.all isMultispaceChar = true →
      rep ≠ [] → rep.all Char.isAlpha = true →
      w2 ≠ [] → w2.all isMultispaceChar = true →
      (∀ c, rest.head? = some c → isMultispaceChar c = false) →
      parseNatDigits d1 < USIZE →
      parse_repeat_only (d1 ++ w1 ++ rep ++ w2 ++ rest)
        = .ok (rest, Repeat.WithoutSpacer
            { repeat_ := rep,
              start := wsub1 (parseNatDigits d1),
              end_ := wadd (wsub1 (parseNatDigits d1)) rep.length }) ∧
      (parseNatDigits d1 = 0 → wsub1 (parseNatDigits d1) = USIZE - 1)) := by
  constructor
  · intro dn w dA dB rest hdne hdall hwne hwall hane haall hbne hball hrest
      hdlt halt hblt
    refine ⟨?_, ?_, ?_⟩
    · have hI : "CRISPR".toList ++ [' '] ++ dn ++ w ++ "Range:".toList ++ [' '] ++
          dA ++ " - ".toList ++ dB ++ rest =
          "CRISPR".toList ++ (' ' :: (dn ++ (w ++ ("Range:".toList ++
            (' ' :: (dA ++ (" - ".toList ++ (dB ++ rest)))))))) := by
        simp [List.append_assoc]
      rw [hI]
      have e1 := tagP_append "CRISPR".toList
        (' ' :: (dn ++ (w ++ ("Range:".toList ++
          (' ' :: (dA ++ (" - ".toList ++ (dB ++ rest))))))))
      have e2 := charP_append ' '
        (dn ++ (w ++ ("Range:".toList ++
          (' ' :: (dA ++ (" - ".toList ++ (dB ++ rest)))))))
      have e3 : spanP Char.isDigit
          (dn ++ (w ++ ("Range:".toList ++
            (' ' :: (dA ++ (" - ".toList ++ (dB ++ rest))))))) =
          .ok (w ++ ("Range:".toList ++
            (' ' :: (dA ++ (" - ".toList ++ (dB ++ rest))))), dn) :=
        spanP_append hdne hdall
          (head?_all_append hwne hwall (fun c hc => multispace_not_digit hc))
      have e4 : spanP isMultispaceChar
          (w ++ ("Range:".toList ++
            (' ' :: (dA ++ (" - ".toList ++ (dB ++ rest)))))) =
          .ok ("Range:".toList ++
            (' ' :: (dA ++ (" - ".toList ++ (dB ++ rest)))), w) := by
        refine spanP_append hwne hwall ?_
        intro c hc
        rw [show ("Range:".toList ++
          (' ' :: (dA ++ (" - ".toList ++ (dB ++ rest))))).head? = some 'R'
          from rfl] at hc
        injection hc with hc
        subst hc
        decide
      have e5 := tagP_append "Range:".toList
        (' ' :: (dA ++ (" - ".toList ++ (dB ++ rest))))
      have e6 := charP_append ' ' (dA ++ (" - ".toList ++ (dB ++ rest)))
      have e7 : spanP Char.isDigit (dA ++ (" - ".toList ++ (dB ++ rest))) =
          .ok (" - ".toList ++ (dB ++ rest), dA) := by
        refine spanP_append hane haall ?_
        intro c hc
        rw [show (" - ".toList ++ (dB ++ rest)).head? = some ' ' from rfl] at hc
        injection hc with hc
        subst hc
        decide
      have e8 := tagP_append " - ".toList (dB ++ rest)
      have e9 : spanP Char.isDigit (dB ++ rest) = .ok (rest, dB) :=
        spanP_append hbne hball hrest
      have eA := rustParseUsize_digits hdne hdall hdlt
      have eB := rustParseUsize_digits hane haall halt
      have eC := rustParseUsize_digits hbne hball hblt
      simp only [parse_crispr_order_and_coordinates, digit1, multispace1,
        e1, e2, e3, e4, e5, e6, e7, e8, e9, eA, eB, eC]
    · intro h0
      rw [h0]
      decide
    · intro h0
      rw [h0]
      decide
  · intro d1 w1 rep w2 rest h1ne h1all hw1ne hw1all hrne hrall hw2ne hw2all
      hrest h1lt
    refine ⟨?_, ?_⟩
    · have hI : d1 ++ w1 ++ rep ++ w2 ++ rest =
          d1 ++ (w1 ++ (rep ++ (w2 ++ rest))) := by
        simp [List.append_assoc]
      rw [hI]
      have e1 : spanP Char.isDigit (d1 ++ (w1 ++ (rep ++ (w2 ++ rest)))) =
          .ok (w1 ++ (rep ++ (w2 ++ rest)), d1) :=
        spanP_append h1ne h1all
          (head?_all_append hw1ne hw1all (fun c hc => multispace_not_digit hc))
      have e2 : spanP isMultispaceChar (w1 ++ (rep ++ (w2 ++ rest))) =
          .ok (rep ++ (w2 ++ rest), w1) :=
        spanP_append hw1ne hw1all
          (head?_all_append hrne hrall (fun c hc => alpha_not_multispace hc))
      have e3 : spanP Char.isAlpha (rep ++ (w2 ++ rest)) =
          .ok (w2 ++ rest, rep) :=
        spanP_append hrne hrall
          (head?_all_append hw2ne hw2all (fun c hc => multispace_not_alpha hc))
      have e4 : spanP isMultispaceChar (w2 ++ rest) = .ok (rest, w2) :=
        spanP_append hw2ne hw2all hrest
      have eU := rustParseUsize_digits h1ne h1all h1lt
      simp only [parse_repeat_only, digit1, alpha1, multispace1,
        e1, e2, e3, e4, eU]
    · intro h0
      rw [h0]
      decide

/-- Witness for claim C8 at `CRISPR 0 Range: 0 - 5` and the row `0 AAA`:
both parse successfully with the zero-valued fields wrapped to
`USIZE - 1`. -/
theorem claim_c8_witness :
    (parse_crispr_order_and_coordinates
        ("CRISPR".toList ++ [' '] ++ ['0'] ++ [' '] ++ "Range:".toList ++ [' '] ++
          ['0'] ++ " - ".toList ++ ['5'] ++ ([] : List Char))
      = .ok (([] : List Char), (wsub1 (parseNatDigits ['0']),
          wsub1 (parseNatDigits ['0']), parseNatDigits ['5'])) ∧
     (parseNatDigits ['0'] = 0 → wsub1 (parseNatDigits ['0']) = USIZE - 1) ∧
     (parseNatDigits ['0'] = 0 → wsub1 (parseNatDigits ['0']) = USIZE - 1)) ∧
    (parse_repeat_only (['0'] ++ [' '] ++ "AAA".toList ++ ['\n'] ++ ([] : List Char))
      = .ok (([] : List Char), Repeat.WithoutSpacer
          { repeat_ := "AAA".toList,
            start := wsub1 (parseNatDigits ['0']),
            end_ := wadd (wsub1 (parseNatDigits ['0'])) "AAA".toList.length }) ∧
     (parseNatDigits ['0'] = 0 → wsub1 (parseNatDigits ['0']) = USIZE - 1)) :=
  ⟨claim_c8.1 ['0'] [' '] ['0'] ['5'] [] (by decide) (by decide) (by decide)
     (by decide) (by decide) (by decide) (by decide) (by decide)
     (by intro c hc; exact absurd hc (by simp)) (by decide) (by decide) (by decide),
   claim_c8.2 ['0'] [' '] "AAA".toList ['\n'] [] (by decide) (by decide)
     (by decide) (by decide) (by decide) (by decide) (by decide) (by decide)
     (by intro c hc; exact absurd hc (by simp)) (by decide)⟩

end Minced
